import Mathlib

/-!
Verification of the session evaluation engine of the trader module
(`convex/trader.ts`) and its broker client (`convex/lib/oanda.ts`).

The embedding models JavaScript numbers as `Option ℚ`: `some q` is a finite
number, `none` stands for a non-finite value (`NaN`, or an `undefined` read
such as indexing an empty array).  All JavaScript comparisons on possibly
non-finite numbers are embedded by the `j*` helpers below, which return
`false` (respectively propagate `none`) whenever an operand is `none`,
matching IEEE semantics for `NaN`.  Convex store semantics are modelled
explicitly: patching a field with `undefined` removes the field, and the
internal mutations that guard a patch with `!== undefined` are embedded with
a `match` on the optional argument.  All `Date.now()` reads inside one
operation are modelled by a single `now` value.
-/

namespace Trader

/-- Session lifecycle status, `traderSessions.status`. -/
inductive Status where
  | stopped
  | running
  | error
deriving DecidableEq

/-- Trading signal, `traderSessions.lastSignal`. -/
inductive Signal where
  | long
  | short
  | neutral
deriving DecidableEq

/-- Position direction, `traderPositions.direction`. -/
inductive Direction where
  | long
  | short
deriving DecidableEq

/-- The direction seen as a signal, for the `signal !== activePosition.direction` comparison. -/
def Direction.toSignal : Direction → Signal
  | Direction.long => Signal.long
  | Direction.short => Signal.short

/-- A non-neutral signal as a direction (`const direction: TradingDirection = signal`). -/
def Signal.toDirection : Signal → Option Direction
  | Signal.long => some Direction.long
  | Signal.short => some Direction.short
  | Signal.neutral => none

/-- Log severity, `traderLogs.level`. -/
inductive LogLevel where
  | info
  | warn
  | error
  | trade
  | analysis
deriving DecidableEq

/-- One `traderLogs` row; the structured `details` payload is not modelled. -/
structure LogEntry where
  level : LogLevel
  message : String
deriving DecidableEq

/-- The strategy configuration fields shared by `createSession` and `updateSession`. -/
structure SessionConfig where
  name : String
  instrument : String
  granularity : String
  shortWindow : ℤ
  longWindow : ℤ
  tradeUnits : ℚ
  takeProfitMultiplier : ℚ
  stopLossMultiplier : ℚ
  neutralThreshold : ℚ
deriving DecidableEq

/-- A `traderSessions` document.  The configuration fields are grouped in
`config`; optional fields are absent (`none`) exactly when the document does
not carry them. -/
structure Session where
  config : SessionConfig
  status : Status
  lastSignal : Option Signal
  lastShortMA : Option ℚ
  lastLongMA : Option ℚ
  lastPrice : Option ℚ
  lastEvaluationTime : Option ℕ
  errorMessage : Option String
  updatedAt : ℕ
deriving DecidableEq

/-- Position record status, `traderPositions.status`. -/
inductive PosStatus where
  | opened
  | closed
deriving DecidableEq

/-- A `traderPositions` document; `id` models the Convex document id.
`entryPrice` is `Option ℚ` because the inserted value can be the non-finite
`latestPrice` of a degenerate evaluation. -/
structure Position where
  id : ℕ
  direction : Direction
  units : ℚ
  entryPrice : Option ℚ
  takeProfitPrice : Option ℚ
  stopLossPrice : Option ℚ
  status : PosStatus
  oandaTradeId : Option String
  exitPrice : Option ℚ
  realizedPnl : Option ℚ
  closeReason : Option String
  openedAt : ℕ
  closedAt : Option ℕ
deriving DecidableEq

/-- The store state of one session: its document, its position documents and
its log documents.  `nextPosId` models the id the next insert receives. -/
structure EngineState where
  session : Session
  positions : List Position
  logs : List LogEntry
  nextPosId : ℕ
deriving DecidableEq

/-- One OANDA fill transaction (`OandaOrderFill`); `fullPrice` models
`fullPrice?.price`, the list fields carry the `tradeID` strings. -/
structure OandaOrderFill where
  price : Option ℚ
  fullPrice : Option ℚ
  pl : Option ℚ
  tradeOpened : Option String
  tradesOpened : List String
  tradeReduced : Option String
  tradesClosed : List String
deriving DecidableEq

/-- An OANDA order response (`OandaOrderResponse`), restricted to the fields the engine reads. -/
structure OandaOrderResponse where
  orderFillTransaction : Option OandaOrderFill
  orderFillTransactions : List OandaOrderFill
deriving DecidableEq

/-- A fetched candle: its `complete` flag and the parsed `mid.c` closing price. -/
structure Candle where
  complete : Bool
  close : ℚ
deriving DecidableEq

/-- The external world one evaluation tick can observe: whether OANDA
credentials are configured, and the outcome of each broker call the tick can
make (`Except.error` is a thrown exception carrying its message). -/
structure TickEnv where
  now : ℕ
  oandaConfigured : Bool
  candlesResult : Except String (List Candle)
  openTradesResult : Except String (List String)
  placeOrderResult : Except String OandaOrderResponse
  closeTradeResult : Except String OandaOrderResponse

/-! ## JavaScript numeric helpers -/

/-- JavaScript `<`; any comparison with a non-finite value is `false`. -/
def jlt : Option ℚ → Option ℚ → Bool
  | some a, some b => decide (a < b)
  | _, _ => false

/-- JavaScript `>`; any comparison with a non-finite value is `false`. -/
def jgt : Option ℚ → Option ℚ → Bool
  | some a, some b => decide (b < a)
  | _, _ => false

/-- JavaScript subtraction; non-finite operands give `NaN`. -/
def jsub : Option ℚ → Option ℚ → Option ℚ
  | some a, some b => some (a - b)
  | _, _ => none

/-- JavaScript multiplication; non-finite operands give `NaN`. -/
def jmul : Option ℚ → Option ℚ → Option ℚ
  | some a, some b => some (a * b)
  | _, _ => none

/-- JavaScript `Math.abs`. -/
def jabs : Option ℚ → Option ℚ
  | some a => some |a|
  | none => none

/-- JavaScript division as used by the engine; a zero divisor yields a
non-finite result (`0 / 0` is `NaN`). -/
def jdiv : Option ℚ → Option ℚ → Option ℚ
  | some a, some b => if b = 0 then none else some (a / b)
  | _, _ => none

/-- `Number.EPSILON`, `2 ^ -52`. -/
def jsEpsilon : ℚ := 1 / 2 ^ 52

/-! ## Pure strategy functions -/

/-- `movingAverage(series, length)`.  When the series is shorter than the
window it returns `series[series.length - 1]` (`none` for an empty series);
otherwise it averages `series.slice(series.length - length)`, and an empty
window makes the result the non-finite `0 / 0`. -/
def movingAverage (series : List ℚ) (length : ℤ) : Option ℚ :=
  if (series.length : ℤ) < length then
    series.getLast?
  else
    let window := series.drop (((series.length : ℤ) - length).toNat)
    if window = [] then none
    else some (window.sum / (window.length : ℚ))

/-- `computeSignal(shortMA, longMA, neutralThreshold)`. -/
def computeSignal (shortMA longMA : Option ℚ) (neutralThreshold : ℚ) : Signal :=
  let diff := jsub shortMA longMA
  if jlt (jabs longMA) (some jsEpsilon) then
    if jgt diff (some 0) then Signal.long
    else if jlt diff (some 0) then Signal.short
    else Signal.neutral
  else
    let rel := jdiv (jabs diff) (jabs longMA)
    if jlt rel (some neutralThreshold) then Signal.neutral
    else if jgt diff (some 0) then Signal.long
    else Signal.short

/-- `validateConfig(config)`; a thrown error is returned as `Except.error`. -/
def validateConfig (config : SessionConfig) : Except String Unit :=
  if config.longWindow ≤ config.shortWindow then
    Except.error "Long window must be greater than short window."
  else if config.tradeUnits ≤ 0 then
    Except.error "Trade units must be greater than zero."
  else if config.takeProfitMultiplier ≤ 0 ∨ config.stopLossMultiplier ≤ 0 then
    Except.error "Take profit and stop loss multipliers must be positive numbers."
  else if config.neutralThreshold < 0 then
    Except.error "Neutral threshold must be zero or positive."
  else
    Except.ok ()

/-- The closing prices a tick extracts: keep complete candles, take `mid.c`. -/
def closingPrices (candles : List Candle) : List ℚ :=
  (candles.filter (fun c => c.complete)).map (fun c => c.close)

/-- The signal one tick computes from the closing prices and the configuration. -/
def tickSignal (config : SessionConfig) (closes : List ℚ) : Signal :=
  computeSignal (movingAverage closes config.shortWindow)
    (movingAverage closes config.longWindow) config.neutralThreshold

/-- `session.lastSignal ?? 'neutral'`. -/
def previousSignalOf (s : Session) : Signal :=
  s.lastSignal.getD Signal.neutral

/-! ## Store mutations -/

/-- `logEvent`: insert one log row. -/
def logEvent (st : EngineState) (level : LogLevel) (message : String) : EngineState :=
  { st with logs := st.logs ++ [{ level := level, message := message }] }

/-- The session patch built by `updateAnalytics`: each field is patched only
when the argument is defined. -/
def applyAnalyticsPatch (s : Session) (lastShortMA lastLongMA lastPrice : Option ℚ)
    (lastSignal : Option Signal) (lastEvaluationTime : Option ℕ)
    (errorMessage : Option String) (now : ℕ) : Session :=
  let s0 := { s with updatedAt := now }
  let s1 := match lastShortMA with
    | some x => { s0 with lastShortMA := some x }
    | none => s0
  let s2 := match lastLongMA with
    | some x => { s1 with lastLongMA := some x }
    | none => s1
  let s3 := match lastPrice with
    | some x => { s2 with lastPrice := some x }
    | none => s2
  let s4 := match lastSignal with
    | some x => { s3 with lastSignal := some x }
    | none => s3
  let s5 := match lastEvaluationTime with
    | some x => { s4 with lastEvaluationTime := some x }
    | none => s4
  match errorMessage with
  | some m => { s5 with errorMessage := some m }
  | none => s5

/-- `updateAnalytics`. -/
def updateAnalytics (st : EngineState) (lastShortMA lastLongMA lastPrice : Option ℚ)
    (lastSignal : Option Signal) (lastEvaluationTime : Option ℕ)
    (errorMessage : Option String) (now : ℕ) : EngineState :=
  { st with
    session := applyAnalyticsPatch st.session lastShortMA lastLongMA lastPrice
      lastSignal lastEvaluationTime errorMessage now }

/-- The session patch built by `setStatus`: `errorMessage` is patched only when defined. -/
def applyStatusPatch (s : Session) (status : Status) (errorMessage : Option String)
    (now : ℕ) : Session :=
  let s0 := { s with status := status, updatedAt := now }
  match errorMessage with
  | some m => { s0 with errorMessage := some m }
  | none => s0

/-- `setStatus`. -/
def setStatus (st : EngineState) (status : Status) (errorMessage : Option String)
    (now : ℕ) : EngineState :=
  { st with session := applyStatusPatch st.session status errorMessage now }

/-- `createPositionRecord`: insert a new open position and touch the session. -/
def createPositionRecord (st : EngineState) (direction : Direction) (units : ℚ)
    (entryPrice takeProfitPrice stopLossPrice : Option ℚ)
    (oandaTradeId : Option String) (now : ℕ) : EngineState :=
  { st with
    positions := st.positions ++
      [{ id := st.nextPosId
         direction := direction
         units := units
         entryPrice := entryPrice
         takeProfitPrice := takeProfitPrice
         stopLossPrice := stopLossPrice
         status := PosStatus.opened
         oandaTradeId := oandaTradeId
         exitPrice := none
         realizedPnl := none
         closeReason := none
         openedAt := now
         closedAt := none }]
    nextPosId := st.nextPosId + 1
    session := { st.session with updatedAt := now } }

/-- The patch `closePositionRecord` applies to the matching position:
`exitPrice` and `realizedPnl` are patched only when defined. -/
def closePatch (p : Position) (exitPrice realizedPnl : Option ℚ) (closeReason : String)
    (now : ℕ) : Position :=
  let p0 := { p with
    status := PosStatus.closed
    closedAt := some now
    closeReason := some closeReason }
  let p1 := match exitPrice with
    | some e => { p0 with exitPrice := some e }
    | none => p0
  match realizedPnl with
  | some r => { p1 with realizedPnl := some r }
  | none => p1

/-- `closePositionRecord`: a missing id is a silent no-op; otherwise patch the
position and touch the session. -/
def closePositionRecord (st : EngineState) (positionId : ℕ)
    (exitPrice realizedPnl : Option ℚ) (closeReason : String) (now : ℕ) : EngineState :=
  match st.positions.find? (fun p => p.id = positionId) with
  | none => st
  | some _ =>
    { st with
      positions := st.positions.map (fun p =>
        if p.id = positionId then closePatch p exitPrice realizedPnl closeReason now else p)
      session := { st.session with updatedAt := now } }

/-- The locally open positions of the session, as `getSessionState` queries them. -/
def openPositionsOf (st : EngineState) : List Position :=
  st.positions.filter (fun p => p.status = PosStatus.opened)

/-! ## Broker response handling -/

/-- `response.orderFillTransaction ?? response.orderFillTransactions?.[0]`. -/
def fillOf (resp : OandaOrderResponse) : Option OandaOrderFill :=
  match resp.orderFillTransaction with
  | some f => some f
  | none => resp.orderFillTransactions.head?

/-- The fill price the engine reads: `fill?.price`, else `fill?.fullPrice?.price`,
else the fallback value. -/
def fillPrice (fill : Option OandaOrderFill) (fallback : Option ℚ) : Option ℚ :=
  match fill with
  | some f =>
    match f.price with
    | some p => some p
    | none =>
      match f.fullPrice with
      | some p => some p
      | none => fallback
  | none => fallback

/-- `extractTradeId(response)`: first applicable of the four response shapes. -/
def extractTradeId (resp : OandaOrderResponse) : Option String :=
  match fillOf resp with
  | none => none
  | some fill =>
    match fill.tradeOpened with
    | some tid => some tid
    | none =>
      match fill.tradesOpened.head? with
      | some tid => some tid
      | none =>
        match fill.tradeReduced with
        | some tid => some tid
        | none => fill.tradesClosed.head?

/-! ## Order executor -/

/-- `Math.abs(session.tradeUnits) * (direction === 'long' ? 1 : -1)`. -/
def signedUnits (config : SessionConfig) (direction : Direction) : ℚ :=
  |config.tradeUnits| * (if direction = Direction.long then 1 else -1)

/-- The take-profit target computed for an open. -/
def takeProfitPriceFor (config : SessionConfig) (direction : Direction)
    (marketPrice : Option ℚ) : Option ℚ :=
  if direction = Direction.long then
    jmul marketPrice (some (1 + config.takeProfitMultiplier))
  else
    jmul marketPrice (some (1 - config.takeProfitMultiplier))

/-- The stop-loss target computed for an open. -/
def stopLossPriceFor (config : SessionConfig) (direction : Direction)
    (marketPrice : Option ℚ) : Option ℚ :=
  if direction = Direction.long then
    jmul marketPrice (some (1 - config.stopLossMultiplier))
  else
    jmul marketPrice (some (1 + config.stopLossMultiplier))

/-- `openPositionWithBroker`.  The returned `Bool` is `true` exactly when a
`placeMarketOrder` network call was issued.  A thrown broker error is
returned as `Except.error` together with the store state at the throw. -/
def openPositionWithBroker (env : TickEnv) (st : EngineState) (signal : Direction)
    (marketPrice : Option ℚ) : Except (String × EngineState) (EngineState × Bool) :=
  let direction := signal
  let units := signedUnits st.session.config direction
  let takeProfitPrice := takeProfitPriceFor st.session.config direction marketPrice
  let stopLossPrice := stopLossPriceFor st.session.config direction marketPrice
  if env.oandaConfigured = true then
    match env.placeOrderResult with
    | Except.error e => Except.error (e, st)
    | Except.ok resp =>
      let tradeId := extractTradeId resp
      let entryPrice := fillPrice (fillOf resp) marketPrice
      Except.ok
        (logEvent
          (createPositionRecord st direction units entryPrice takeProfitPrice
            stopLossPrice tradeId env.now)
          LogLevel.trade "Opened position", true)
  else
    Except.ok
      (logEvent
        (createPositionRecord st direction units marketPrice takeProfitPrice
          stopLossPrice none env.now)
        LogLevel.trade "Opened position", false)

/-- JavaScript truthiness of `position.oandaTradeId`. -/
def hasTradeId (p : Position) : Bool :=
  match p.oandaTradeId with
  | some tid => decide (tid ≠ "")
  | none => false

/-- `closePositionWithBroker`. -/
def closePositionWithBroker (env : TickEnv) (st : EngineState) (position : Position)
    (marketPrice : Option ℚ) (reason : String) : Except (String × EngineState) EngineState :=
  if hasTradeId position = true ∧ env.oandaConfigured = true then
    match env.closeTradeResult with
    | Except.error e => Except.error (e, st)
    | Except.ok resp =>
      let fill := fillOf resp
      let exitPrice := fillPrice fill marketPrice
      let realizedPnl := match fill with
        | some f => f.pl
        | none => none
      Except.ok
        (logEvent (closePositionRecord st position.id exitPrice realizedPnl reason env.now)
          LogLevel.trade ("Closed position (" ++ reason ++ ")"))
  else
    Except.ok
      (logEvent (closePositionRecord st position.id marketPrice none reason env.now)
        LogLevel.trade ("Closed position (" ++ reason ++ ")"))

/-! ## Position reconciler -/

/-- `position.oandaTradeId && !liveIds.has(position.oandaTradeId)`. -/
def shouldBrokerClose (liveIds : List String) (p : Position) : Bool :=
  match p.oandaTradeId with
  | some tid => decide (tid ≠ "") && !(liveIds.contains tid)
  | none => false

/-- One iteration of the reconciliation loop body. -/
def reconcileOne (liveIds : List String) (latestPrice : Option ℚ) (now : ℕ)
    (st : EngineState) (p : Position) : EngineState :=
  if shouldBrokerClose liveIds p = true then
    logEvent (closePositionRecord st p.id latestPrice none "broker-closed" now)
      LogLevel.trade "Detected broker-closed position"
  else st

/-- The reconciliation block of `evaluateSession`: skipped when no local open
position exists or the broker is not configured; a failing `getOpenTrades`
logs a warning and keeps the stale local view; otherwise every stale position
is closed and the open-position view is re-queried. -/
def reconcileStep (env : TickEnv) (openPos0 : List Position) (latestPrice : Option ℚ)
    (st : EngineState) : EngineState × List Position :=
  if openPos0 ≠ [] ∧ env.oandaConfigured = true then
    match env.openTradesResult with
    | Except.error e =>
      (logEvent st LogLevel.warn ("Failed to sync open trades: " ++ e), openPos0)
    | Except.ok liveIds =>
      let st1 := openPos0.foldl (reconcileOne liveIds latestPrice env.now) st
      (st1, openPositionsOf st1)
  else (st, openPos0)

/-! ## Session evaluator -/

/-- Step 7 of a tick: close the active position when the signal is neutral or
flipped, then re-query the open positions. -/
def closeStep (env : TickEnv) (signal : Signal) (latestPrice : Option ℚ)
    (st : EngineState) (openPositions : List Position) :
    Except (String × EngineState) (EngineState × List Position) :=
  match openPositions.head? with
  | none => Except.ok (st, openPositions)
  | some activePosition =>
    if signal = Signal.neutral ∨ signal ≠ activePosition.direction.toSignal then
      let st1 := logEvent st LogLevel.info "Signal requires closing current position"
      match closePositionWithBroker env st1 activePosition latestPrice
          (if signal = Signal.neutral then "neutral-signal" else "signal-flip") with
      | Except.error e => Except.error e
      | Except.ok st2 => Except.ok (st2, openPositionsOf st2)
    else Except.ok (st, openPositions)

/-- Step 8 of a tick: open a new position only when no position remains open
and the non-neutral signal differs from the previously recorded one. -/
def openStep (env : TickEnv) (signal previousSignal : Signal) (latestPrice : Option ℚ)
    (st : EngineState) (openPositions : List Position) :
    Except (String × EngineState) EngineState :=
  if openPositions = [] ∧ signal ≠ Signal.neutral ∧ signal ≠ previousSignal then
    match signal.toDirection with
    | none => Except.ok st
    | some dir =>
      let st1 := logEvent st LogLevel.info "Attempting to open new position"
      match openPositionWithBroker env st1 dir latestPrice with
      | Except.error e => Except.error e
      | Except.ok (st2, _) => Except.ok st2
  else Except.ok st

/-- Steps 6 to 8 of a tick: reconcile, close on a neutral or flipped signal,
then conditionally open. -/
def decideSteps (env : TickEnv) (signal previousSignal : Signal) (latestPrice : Option ℚ)
    (openPos0 : List Position) (st : EngineState) :
    Except (String × EngineState) EngineState :=
  let step := reconcileStep env openPos0 latestPrice st
  match closeStep env signal latestPrice step.1 step.2 with
  | Except.error e => Except.error e
  | Except.ok stepC => openStep env signal previousSignal latestPrice stepC.1 stepC.2

/-- The body of the `try` block of `evaluateSession`; `Except.error` carries
the thrown message together with the store state at the throw. -/
def evaluateBody (env : TickEnv) (st : EngineState) :
    Except (String × EngineState) EngineState :=
  match env.candlesResult with
  | Except.error e => Except.error (e, st)
  | Except.ok candles =>
    let closes := closingPrices candles
    if (closes.length : ℤ) < st.session.config.longWindow then
      Except.ok (logEvent st LogLevel.warn
        ("Not enough historical candles to evaluate strategy (have " ++
          toString closes.length ++ ", need " ++ toString st.session.config.longWindow ++ ")"))
    else
      let shortMA := movingAverage closes st.session.config.shortWindow
      let longMA := movingAverage closes st.session.config.longWindow
      let latestPrice := closes.getLast?
      let previousSignal := previousSignalOf st.session
      let signal := tickSignal st.session.config closes
      let st1 := updateAnalytics st shortMA longMA latestPrice (some signal)
        (some env.now) none env.now
      let st2 := logEvent st1 LogLevel.analysis "Tick processed"
      let openPos0 := openPositionsOf st
      decideSteps env signal previousSignal latestPrice openPos0 st2

/-- `evaluateSession`: a no-op unless the session is running; any exception of
the body is caught, logged as an error, and moves the session to `error`
status carrying the message. -/
def evaluateSession (env : TickEnv) (st : EngineState) : EngineState :=
  if st.session.status ≠ Status.running then st
  else
    match evaluateBody env st with
    | Except.ok st1 => st1
    | Except.error (msg, st1) =>
      setStatus (logEvent st1 LogLevel.error ("Evaluation failed: " ++ msg))
        Status.error (some msg) env.now

/-! ## Session lifecycle mutations -/

/-- `startSession`: a running session is left untouched; otherwise the patch
with `errorMessage: undefined` removes the stored error message.  The
scheduled immediate tick is a separate invocation of `evaluateSession`. -/
def startSession (now : ℕ) (st : EngineState) : EngineState :=
  if st.session.status = Status.running then st
  else
    logEvent
      { st with session :=
        { st.session with status := Status.running, updatedAt := now, errorMessage := none } }
      LogLevel.info "Trading session started"

/-- `stopSession`: the patch with `errorMessage: undefined` removes the stored
error message.  The optionally scheduled position flattening is a separate
action and touches no session field modelled here. -/
def stopSession (now : ℕ) (st : EngineState) : EngineState :=
  logEvent
    { st with session :=
      { st.session with status := Status.stopped, updatedAt := now, errorMessage := none } }
    LogLevel.info "Trading session stopped"

/-- `updateSession`: a validation failure throws before any write. -/
def updateSession (config : SessionConfig) (now : ℕ) (st : EngineState) : EngineState :=
  match validateConfig config with
  | Except.error _ => st
  | Except.ok _ =>
    logEvent { st with session := { st.session with config := config, updatedAt := now } }
      LogLevel.info ("Updated configuration for " ++ config.instrument)

/-- `requestImmediateTick`: only a log insert; the tick itself is a separate
invocation of `evaluateSession`. -/
def requestImmediateTick (_now : ℕ) (st : EngineState) : EngineState :=
  logEvent st LogLevel.info "Manual tick requested"

/-! ## Concrete states used to instantiate the theorems -/

/-- A valid example configuration. -/
def cfgW : SessionConfig :=
  { name := "w"
    instrument := "EUR_USD"
    granularity := "M5"
    shortWindow := 1
    longWindow := 2
    tradeUnits := 3
    takeProfitMultiplier := 1 / 100
    stopLossMultiplier := 1 / 100
    neutralThreshold := 1 / 10 }

/-- A running session with no analytics yet. -/
def sessionW : Session :=
  { config := cfgW
    status := Status.running
    lastSignal := some Signal.neutral
    lastShortMA := none
    lastLongMA := none
    lastPrice := none
    lastEvaluationTime := none
    errorMessage := none
    updatedAt := 0 }

/-- A store state with a running session and no positions or logs. -/
def stW : EngineState :=
  { session := sessionW, positions := [], logs := [], nextPosId := 0 }

/-- An environment whose order placement throws. -/
def envFailW : TickEnv :=
  { now := 10
    oandaConfigured := true
    candlesResult := Except.ok [{ complete := true, close := 1 }, { complete := true, close := 100 }]
    openTradesResult := Except.ok []
    placeOrderResult := Except.error "boom"
    closeTradeResult := Except.error "boom" }

/-- A paper-mode environment (no broker credentials). -/
def envPaperW : TickEnv :=
  { now := 10
    oandaConfigured := false
    candlesResult := Except.ok [{ complete := true, close := 1 }, { complete := true, close := 100 }]
    openTradesResult := Except.ok []
    placeOrderResult := Except.error "unreachable"
    closeTradeResult := Except.error "unreachable" }

/-- An open position held at the broker under trade id `t1`. -/
def posBrokerGoneW : Position :=
  { id := 0
    direction := Direction.long
    units := 3
    entryPrice := some 5
    takeProfitPrice := some 6
    stopLossPrice := some 4
    status := PosStatus.opened
    oandaTradeId := some "t1"
    exitPrice := none
    realizedPnl := none
    closeReason := none
    openedAt := 1
    closedAt := none }

/-- An open paper position (no broker trade id). -/
def posPaperW : Position :=
  { id := 1
    direction := Direction.short
    units := -3
    entryPrice := some 7
    takeProfitPrice := none
    stopLossPrice := none
    status := PosStatus.opened
    oandaTradeId := none
    exitPrice := none
    realizedPnl := none
    closeReason := none
    openedAt := 2
    closedAt := none }

/-- An open position whose trade id `t2` the broker still holds. -/
def posBrokerLiveW : Position :=
  { id := 2
    direction := Direction.long
    units := 3
    entryPrice := some 9
    takeProfitPrice := none
    stopLossPrice := none
    status := PosStatus.opened
    oandaTradeId := some "t2"
    exitPrice := none
    realizedPnl := none
    closeReason := none
    openedAt := 3
    closedAt := none }

/-- A store state holding the three reconciliation test positions. -/
def stReconW : EngineState :=
  { session := sessionW
    positions := [posBrokerGoneW, posPaperW, posBrokerLiveW]
    logs := []
    nextPosId := 3 }

/-- An environment whose broker reports only trade id `t2` as open. -/
def envReconW : TickEnv :=
  { now := 10
    oandaConfigured := true
    candlesResult := Except.ok [{ complete := true, close := 1 }, { complete := true, close := 100 }]
    openTradesResult := Except.ok ["t2"]
    placeOrderResult := Except.error "boom"
    closeTradeResult := Except.error "boom" }

/-- A session stuck in error status with a recorded message. -/
def sessionErrW : Session :=
  { config := cfgW
    status := Status.error
    lastSignal := some Signal.long
    lastShortMA := none
    lastLongMA := none
    lastPrice := none
    lastEvaluationTime := none
    errorMessage := some "boom"
    updatedAt := 0 }

/-- A store state whose session is in error status. -/
def stErrW : EngineState :=
  { session := sessionErrW, positions := [], logs := [], nextPosId := 0 }

/-- A store state whose session is stopped. -/
def stStoppedW : EngineState :=
  { session := { sessionW with status := Status.stopped }
    positions := []
    logs := []
    nextPosId := 0 }

/-- An environment that returns only one completed candle. -/
def envFewW : TickEnv :=
  { now := 10
    oandaConfigured := false
    candlesResult := Except.ok [{ complete := true, close := 5 }, { complete := false, close := 6 }]
    openTradesResult := Except.ok []
    placeOrderResult := Except.error "unreachable"
    closeTradeResult := Except.error "unreachable" }

/-- A configuration with a degenerate zero-length short window. -/
def cfgDegW : SessionConfig :=
  { cfgW with shortWindow := 0, longWindow := 2 }

/-! ## Helper lemmas -/

theorem positions_logEvent (st : EngineState) (l : LogLevel) (m : String) :
    (logEvent st l m).positions = st.positions := rfl

theorem nextPosId_logEvent (st : EngineState) (l : LogLevel) (m : String) :
    (logEvent st l m).nextPosId = st.nextPosId := rfl

theorem session_logEvent (st : EngineState) (l : LogLevel) (m : String) :
    (logEvent st l m).session = st.session := rfl

theorem jsEpsilon_pos : 0 < jsEpsilon := by norm_num [jsEpsilon]

theorem closePatch_id (p : Position) (e r : Option ℚ) (c : String) (n : ℕ) :
    (closePatch p e r c n).id = p.id := by
  unfold closePatch
  cases e <;> cases r <;> rfl

theorem closePatch_idem (p : Position) (e : Option ℚ) (c : String) (n : ℕ) :
    closePatch (closePatch p e none c n) e none c n = closePatch p e none c n := by
  unfold closePatch
  cases e <;> rfl

theorem find?_map_patchAt (l : List Position) (i j : ℕ) (f : Position → Position)
    (hf : ∀ p, (f p).id = p.id) :
    (l.map (fun p => if p.id = j then f p else p)).find? (fun q => q.id = i) =
      if j = i then (l.find? (fun q => q.id = i)).map f
      else l.find? (fun q => q.id = i) := by
  induction l with
  | nil => simp
  | cons p l ih =>
    by_cases hpj : p.id = j <;> by_cases hpi : p.id = i
    · have hji : j = i := hpj.symm.trans hpi
      subst hji
      simp [List.find?_cons, hpj, hf]
    · have hji : ¬j = i := fun hc => hpi (hpj.trans hc)
      simp [List.find?_cons, hpj, hpi, hf, hji, ih]
    · have hji : ¬j = i := fun hc => hpj (hpi.trans hc.symm)
      have hij : ¬i = j := fun hc => hji hc.symm
      simp [List.find?_cons, hpj, hpi, hji, hij]
    · simp [List.find?_cons, hpj, hpi, ih]

theorem closePositionRecord_find (st : EngineState) (j : ℕ) (e r : Option ℚ)
    (c : String) (n : ℕ) (i : ℕ) :
    (closePositionRecord st j e r c n).positions.find? (fun q => q.id = i) =
      if j = i then (st.positions.find? (fun q => q.id = i)).map
        (fun q => closePatch q e r c n)
      else st.positions.find? (fun q => q.id = i) := by
  unfold closePositionRecord
  cases hfind : st.positions.find? (fun p => p.id = j) with
  | none =>
    by_cases hji : j = i
    · subst hji
      rw [if_pos rfl, hfind]
      rfl
    · rw [if_neg hji]
  | some p0 =>
    exact find?_map_patchAt st.positions i j _ (fun p => closePatch_id p e r c n)

theorem reconcileOne_find (liveIds : List String) (lp : Option ℚ) (n : ℕ)
    (st : EngineState) (p : Position) (i : ℕ) :
    (reconcileOne liveIds lp n st p).positions.find? (fun q => q.id = i) =
      if p.id = i ∧ shouldBrokerClose liveIds p = true then
        (st.positions.find? (fun q => q.id = i)).map
          (fun q => closePatch q lp none "broker-closed" n)
      else st.positions.find? (fun q => q.id = i) := by
  unfold reconcileOne
  by_cases hsc : shouldBrokerClose liveIds p = true
  · rw [if_pos hsc, positions_logEvent, closePositionRecord_find]
    by_cases hpi : p.id = i
    · rw [if_pos hpi, if_pos ⟨hpi, hsc⟩]
    · rw [if_neg hpi, if_neg (fun hc => hpi hc.1)]
  · rw [if_neg hsc, if_neg (fun hc => hsc hc.2)]

theorem reconcileFold_find (liveIds : List String) (lp : Option ℚ) (n : ℕ)
    (ps : List Position) (st : EngineState) (i : ℕ) :
    ((ps.foldl (reconcileOne liveIds lp n) st).positions.find? (fun q => q.id = i)) =
      if ps.any (fun p => p.id = i && shouldBrokerClose liveIds p) then
        (st.positions.find? (fun q => q.id = i)).map
          (fun q => closePatch q lp none "broker-closed" n)
      else st.positions.find? (fun q => q.id = i) := by
  induction ps generalizing st with
  | nil => simp
  | cons p ps ih =>
    rw [List.foldl_cons, ih, reconcileOne_find, List.any_cons]
    by_cases hp : p.id = i ∧ shouldBrokerClose liveIds p = true
    · rw [if_pos hp]
      have hhead : (p.id = i && shouldBrokerClose liveIds p) = true := by
        simp [hp.1, hp.2]
      rw [hhead, Bool.true_or, if_pos rfl]
      by_cases hps : ps.any (fun p => p.id = i && shouldBrokerClose liveIds p) = true
      · rw [if_pos hps]
        cases st.positions.find? (fun q => q.id = i) with
        | none => rfl
        | some q => simp [closePatch_idem]
      · rw [if_neg hps]
    · rw [if_neg hp]
      have hhead : (p.id = i && shouldBrokerClose liveIds p) = false := by
        by_cases hpi : p.id = i
        · have hsc : shouldBrokerClose liveIds p = false := by
            rcases Bool.eq_false_or_eq_true (shouldBrokerClose liveIds p) with h | h
            · exact absurd ⟨hpi, h⟩ hp
            · exact h
          simp [hsc]
        · simp [hpi]
      rw [hhead, Bool.false_or]

theorem closePositionRecord_positions_length (st : EngineState) (j : ℕ)
    (e r : Option ℚ) (c : String) (n : ℕ) :
    (closePositionRecord st j e r c n).positions.length = st.positions.length := by
  unfold closePositionRecord
  split
  · rfl
  · simp

theorem closePositionRecord_nextPosId (st : EngineState) (j : ℕ)
    (e r : Option ℚ) (c : String) (n : ℕ) :
    (closePositionRecord st j e r c n).nextPosId = st.nextPosId := by
  unfold closePositionRecord
  split <;> rfl

theorem reconcileOne_positions_length (ids : List String) (lp : Option ℚ) (n : ℕ)
    (st : EngineState) (p : Position) :
    (reconcileOne ids lp n st p).positions.length = st.positions.length := by
  unfold reconcileOne
  split
  · rw [positions_logEvent, closePositionRecord_positions_length]
  · rfl

theorem reconcileOne_nextPosId (ids : List String) (lp : Option ℚ) (n : ℕ)
    (st : EngineState) (p : Position) :
    (reconcileOne ids lp n st p).nextPosId = st.nextPosId := by
  unfold reconcileOne
  split
  · rw [nextPosId_logEvent, closePositionRecord_nextPosId]
  · rfl

theorem reconcileFold_positions_length (ids : List String) (lp : Option ℚ) (n : ℕ)
    (ps : List Position) (st : EngineState) :
    ((ps.foldl (reconcileOne ids lp n) st).positions.length = st.positions.length) := by
  induction ps generalizing st with
  | nil => rfl
  | cons p ps ih => rw [List.foldl_cons, ih, reconcileOne_positions_length]

theorem reconcileFold_nextPosId (ids : List String) (lp : Option ℚ) (n : ℕ)
    (ps : List Position) (st : EngineState) :
    ((ps.foldl (reconcileOne ids lp n) st).nextPosId = st.nextPosId) := by
  induction ps generalizing st with
  | nil => rfl
  | cons p ps ih => rw [List.foldl_cons, ih, reconcileOne_nextPosId]

theorem reconcileStep_spec (env : TickEnv) (ops : List Position) (lp : Option ℚ)
    (st : EngineState) :
    (reconcileStep env ops lp st).1.positions.length = st.positions.length ∧
    (reconcileStep env ops lp st).1.nextPosId = st.nextPosId ∧
    (ops = openPositionsOf st →
      (reconcileStep env ops lp st).2 = openPositionsOf (reconcileStep env ops lp st).1) := by
  unfold reconcileStep
  split
  · cases henv : env.openTradesResult with
    | error e => exact ⟨rfl, rfl, fun h => h⟩
    | ok ids =>
      exact ⟨reconcileFold_positions_length ids lp env.now ops st,
        reconcileFold_nextPosId ids lp env.now ops st, fun _ => rfl⟩
  · exact ⟨rfl, rfl, fun h => h⟩

theorem closePositionWithBroker_ok_spec (env : TickEnv) (st : EngineState)
    (pos : Position) (lp : Option ℚ) (r : String) (st2 : EngineState)
    (h : closePositionWithBroker env st pos lp r = Except.ok st2) :
    st2.positions.length = st.positions.length ∧ st2.nextPosId = st.nextPosId := by
  unfold closePositionWithBroker at h
  split at h
  · cases hc : env.closeTradeResult with
    | error e =>
      rw [hc] at h
      exact absurd h (by simp)
    | ok resp =>
      rw [hc] at h
      simp only [Except.ok.injEq] at h
      subst h
      exact ⟨by rw [positions_logEvent, closePositionRecord_positions_length],
        by rw [nextPosId_logEvent, closePositionRecord_nextPosId]⟩
  · simp only [Except.ok.injEq] at h
    subst h
    exact ⟨by rw [positions_logEvent, closePositionRecord_positions_length],
      by rw [nextPosId_logEvent, closePositionRecord_nextPosId]⟩

theorem closePositionWithBroker_error_spec (env : TickEnv) (st : EngineState)
    (pos : Position) (lp : Option ℚ) (r : String) (e : String) (st2 : EngineState)
    (h : closePositionWithBroker env st pos lp r = Except.error (e, st2)) :
    st2 = st := by
  unfold closePositionWithBroker at h
  split at h
  · cases hc : env.closeTradeResult with
    | error e2 =>
      rw [hc] at h
      simp only [Except.error.injEq, Prod.mk.injEq] at h
      exact h.2.symm
    | ok resp =>
      rw [hc] at h
      exact absurd h (by simp)
  · exact absurd h (by simp)

theorem closeStep_ok_spec (env : TickEnv) (sig : Signal) (lp : Option ℚ)
    (st : EngineState) (ops : List Position) (st2 : EngineState) (ops2 : List Position)
    (h : closeStep env sig lp st ops = Except.ok (st2, ops2)) :
    st2.positions.length = st.positions.length ∧ st2.nextPosId = st.nextPosId ∧
    (ops = openPositionsOf st → ops2 = openPositionsOf st2) := by
  unfold closeStep at h
  cases hh : ops.head? with
  | none =>
    rw [hh] at h
    simp only [Except.ok.injEq, Prod.mk.injEq] at h
    obtain ⟨h1, h2⟩ := h
    subst h1
    subst h2
    exact ⟨rfl, rfl, fun h => h⟩
  | some active =>
    rw [hh] at h
    dsimp only at h
    split at h
    · cases hcb : closePositionWithBroker env
          (logEvent st LogLevel.info "Signal requires closing current position") active lp
          (if sig = Signal.neutral then "neutral-signal" else "signal-flip") with
      | error p =>
        rw [hcb] at h
        exact absurd h (by simp)
      | ok stc =>
        rw [hcb] at h
        simp only [Except.ok.injEq, Prod.mk.injEq] at h
        obtain ⟨h1, h2⟩ := h
        subst h1
        subst h2
        obtain ⟨hl, hn⟩ := closePositionWithBroker_ok_spec _ _ _ _ _ _ hcb
        exact ⟨hl, hn, fun _ => rfl⟩
    · simp only [Except.ok.injEq, Prod.mk.injEq] at h
      obtain ⟨h1, h2⟩ := h
      subst h1
      subst h2
      exact ⟨rfl, rfl, fun h => h⟩

theorem closeStep_error_spec (env : TickEnv) (sig : Signal) (lp : Option ℚ)
    (st : EngineState) (ops : List Position) (e : String) (st2 : EngineState)
    (h : closeStep env sig lp st ops = Except.error (e, st2)) :
    st2.positions = st.positions ∧ st2.nextPosId = st.nextPosId := by
  unfold closeStep at h
  cases hh : ops.head? with
  | none =>
    rw [hh] at h
    exact absurd h (by simp)
  | some active =>
    rw [hh] at h
    dsimp only at h
    split at h
    · cases hcb : closePositionWithBroker env
          (logEvent st LogLevel.info "Signal requires closing current position") active lp
          (if sig = Signal.neutral then "neutral-signal" else "signal-flip") with
      | error p =>
        rw [hcb] at h
        obtain ⟨e2, stE⟩ := p
        simp only [Except.error.injEq, Prod.mk.injEq] at h
        obtain ⟨-, h2⟩ := h
        subst h2
        have := closePositionWithBroker_error_spec _ _ _ _ _ _ _ hcb
        subst this
        exact ⟨rfl, rfl⟩
      | ok stc =>
        rw [hcb] at h
        exact absurd h (by simp)
    · exact absurd h (by simp)

theorem openPositionWithBroker_ok_positions (env : TickEnv) (st : EngineState)
    (dir : Direction) (mp : Option ℚ) (st2 : EngineState) (b : Bool)
    (h : openPositionWithBroker env st dir mp = Except.ok (st2, b)) :
    ∃ q : Position, q.id = st.nextPosId ∧ q.status = PosStatus.opened ∧
      st2.positions = st.positions ++ [q] := by
  simp only [openPositionWithBroker] at h
  split at h
  · cases hord : env.placeOrderResult with
    | error e =>
      rw [hord] at h
      exact absurd h (by simp)
    | ok resp =>
      rw [hord] at h
      simp only [Except.ok.injEq, Prod.mk.injEq] at h
      obtain ⟨h1, -⟩ := h
      subst h1
      exact ⟨_, rfl, rfl, rfl⟩
  · simp only [Except.ok.injEq, Prod.mk.injEq] at h
    obtain ⟨h1, -⟩ := h
    subst h1
    exact ⟨_, rfl, rfl, rfl⟩

theorem openPositionWithBroker_error_spec (env : TickEnv) (st : EngineState)
    (dir : Direction) (mp : Option ℚ) (e : String) (st2 : EngineState)
    (h : openPositionWithBroker env st dir mp = Except.error (e, st2)) :
    st2 = st := by
  simp only [openPositionWithBroker] at h
  split at h
  · cases hord : env.placeOrderResult with
    | error e2 =>
      rw [hord] at h
      simp only [Except.error.injEq, Prod.mk.injEq] at h
      exact h.2.symm
    | ok resp =>
      rw [hord] at h
      exact absurd h (by simp)
  · exact absurd h (by simp)

theorem openStep_ok_spec (env : TickEnv) (sig prev : Signal) (lp : Option ℚ)
    (st : EngineState) (ops : List Position) (st2 : EngineState)
    (h : openStep env sig prev lp st ops = Except.ok st2) :
    st2 = st ∨
    (ops = [] ∧ sig ≠ Signal.neutral ∧ sig ≠ prev ∧
      ∃ q : Position, q.id = st.nextPosId ∧ q.status = PosStatus.opened ∧
        st2.positions = st.positions ++ [q]) := by
  unfold openStep at h
  split at h
  case isTrue hg =>
    cases hd : sig.toDirection with
    | none =>
      rw [hd] at h
      simp only [Except.ok.injEq] at h
      exact Or.inl h.symm
    | some dir =>
      rw [hd] at h
      dsimp only at h
      cases hob : openPositionWithBroker env
          (logEvent st LogLevel.info "Attempting to open new position") dir lp with
      | error p =>
        rw [hob] at h
        exact absurd h (by simp)
      | ok pr =>
        rw [hob] at h
        obtain ⟨st3, b⟩ := pr
        simp only [Except.ok.injEq] at h
        subst h
        obtain ⟨q, hq1, hq2, hq3⟩ := openPositionWithBroker_ok_positions _ _ _ _ _ _ hob
        exact Or.inr ⟨hg.1, hg.2.1, hg.2.2, q, hq1, hq2, hq3⟩
  case isFalse =>
    simp only [Except.ok.injEq] at h
    exact Or.inl h.symm

theorem openStep_error_spec (env : TickEnv) (sig prev : Signal) (lp : Option ℚ)
    (st : EngineState) (ops : List Position) (e : String) (st2 : EngineState)
    (h : openStep env sig prev lp st ops = Except.error (e, st2)) :
    st2.positions = st.positions ∧ st2.nextPosId = st.nextPosId := by
  unfold openStep at h
  split at h
  · cases hd : sig.toDirection with
    | none =>
      rw [hd] at h
      exact absurd h (by simp)
    | some dir =>
      rw [hd] at h
      dsimp only at h
      cases hob : openPositionWithBroker env
          (logEvent st LogLevel.info "Attempting to open new position") dir lp with
      | error p =>
        rw [hob] at h
        obtain ⟨e2, stE⟩ := p
        simp only [Except.error.injEq, Prod.mk.injEq] at h
        obtain ⟨-, h2⟩ := h
        subst h2
        have := openPositionWithBroker_error_spec _ _ _ _ _ _ hob
        subst this
        exact ⟨rfl, rfl⟩
      | ok pr =>
        rw [hob] at h
        exact absurd h (by simp)
  · exact absurd h (by simp)

theorem decideSteps_ok_spec (env : TickEnv) (sig prev : Signal) (lp : Option ℚ)
    (ops : List Position) (st : EngineState) (st2 : EngineState)
    (h : decideSteps env sig prev lp ops st = Except.ok st2)
    (hops : ops = openPositionsOf st) :
    st2.positions.length = st.positions.length ∨
    (sig ≠ Signal.neutral ∧ sig ≠ prev ∧
      ∃ q : Position, q.status = PosStatus.opened ∧
        st2.positions.length = st.positions.length + 1 ∧
        openPositionsOf st2 = [q]) := by
  unfold decideSteps at h
  dsimp only at h
  cases hcs : closeStep env sig lp (reconcileStep env ops lp st).1
      (reconcileStep env ops lp st).2 with
  | error p =>
    rw [hcs] at h
    exact absurd h (by simp)
  | ok pr =>
    rw [hcs] at h
    obtain ⟨st4, ops2⟩ := pr
    obtain ⟨hr1, hr2, hr3⟩ := reconcileStep_spec env ops lp st
    obtain ⟨hc1, hc2, hc3⟩ := closeStep_ok_spec _ _ _ _ _ _ _ hcs
    have hops2 : ops2 = openPositionsOf st4 := hc3 (hr3 hops)
    rcases openStep_ok_spec _ _ _ _ _ _ _ h with heq | ⟨hops0, hsig, hprev, q, hq1, hq2, hq3⟩
    · left
      rw [heq, hc1, hr1]
    · right
      refine ⟨hsig, hprev, q, hq2, ?_, ?_⟩
      · rw [hq3, List.length_append, hc1, hr1]
        rfl
      · have hempty : openPositionsOf st4 = [] := hops2 ▸ hops0
        rw [openPositionsOf, hq3, List.filter_append]
        have h1 : st4.positions.filter (fun p => p.status = PosStatus.opened) = [] := hempty
        rw [h1]
        simp [hq2]

theorem decideSteps_error_spec (env : TickEnv) (sig prev : Signal) (lp : Option ℚ)
    (ops : List Position) (st : EngineState) (e : String) (st2 : EngineState)
    (h : decideSteps env sig prev lp ops st = Except.error (e, st2)) :
    st2.positions.length = st.positions.length := by
  unfold decideSteps at h
  dsimp only at h
  cases hcs : closeStep env sig lp (reconcileStep env ops lp st).1
      (reconcileStep env ops lp st).2 with
  | error p =>
    rw [hcs] at h
    obtain ⟨e2, stE⟩ := p
    simp only [Except.error.injEq, Prod.mk.injEq] at h
    obtain ⟨-, h2⟩ := h
    subst h2
    obtain ⟨hp, -⟩ := closeStep_error_spec _ _ _ _ _ _ _ hcs
    rw [hp, (reconcileStep_spec env ops lp st).1]
  | ok pr =>
    rw [hcs] at h
    obtain ⟨st4, ops2⟩ := pr
    obtain ⟨hp, -⟩ := openStep_error_spec _ _ _ _ _ _ _ _ h
    obtain ⟨hc1, -, -⟩ := closeStep_ok_spec _ _ _ _ _ _ _ hcs
    rw [hp, hc1, (reconcileStep_spec env ops lp st).1]

theorem evaluateBody_ok_spec (env : TickEnv) (st : EngineState) (st1 : EngineState)
    (h : evaluateBody env st = Except.ok st1) :
    st1.positions.length = st.positions.length ∨
    ∃ candles, env.candlesResult = Except.ok candles ∧
      tickSignal st.session.config (closingPrices candles) ≠ Signal.neutral ∧
      tickSignal st.session.config (closingPrices candles) ≠ previousSignalOf st.session ∧
      ∃ q : Position, q.status = PosStatus.opened ∧
        st1.positions.length = st.positions.length + 1 ∧
        openPositionsOf st1 = [q] := by
  unfold evaluateBody at h
  cases hc : env.candlesResult with
  | error e2 =>
    rw [hc] at h
    exact absurd h (by simp)
  | ok candles =>
    rw [hc] at h
    dsimp only at h
    split at h
    · left
      simp only [Except.ok.injEq] at h
      rw [← h]
      rfl
    · rcases decideSteps_ok_spec _ _ _ _ _ _ _ h rfl with h1 | ⟨hsig, hprev, q, hq1, hq2, hq3⟩
      · exact Or.inl h1
      · exact Or.inr ⟨candles, rfl, hsig, hprev, q, hq1, hq2, hq3⟩

theorem evaluateBody_error_spec (env : TickEnv) (st : EngineState) (e : String)
    (st1 : EngineState) (h : evaluateBody env st = Except.error (e, st1)) :
    st1.positions.length = st.positions.length := by
  unfold evaluateBody at h
  cases hc : env.candlesResult with
  | error e2 =>
    rw [hc] at h
    simp only [Except.error.injEq, Prod.mk.injEq] at h
    rw [← h.2]
  | ok candles =>
    rw [hc] at h
    dsimp only at h
    split at h
    · exact absurd h (by simp)
    · have h2 := decideSteps_error_spec _ _ _ _ _ _ _ _ h
      exact h2

theorem find?_eq_self_of_nodup (l : List Position) (p : Position)
    (hmem : p ∈ l) (hnodup : (l.map (fun q => q.id)).Nodup) :
    l.find? (fun q => q.id = p.id) = some p := by
  induction l with
  | nil => cases hmem
  | cons a l ih =>
    rw [List.map_cons, List.nodup_cons] at hnodup
    rcases List.mem_cons.1 hmem with heq | hmem2
    · subst heq
      exact List.find?_cons_of_pos _ (by simp)
    · have hne : ¬a.id = p.id := fun hc => hnodup.1 (hc ▸ List.mem_map_of_mem _ hmem2)
      rw [List.find?_cons_of_neg _ (by simpa using hne)]
      exact ih hmem2 hnodup.2

/-! ## Claim theorems -/

/-- Claim C5: a tick on a session that is not running performs no store
mutation of any kind and returns without error: the state is untouched. -/
theorem evaluateSession_not_running_noop (env : TickEnv) (st : EngineState)
    (h : st.session.status ≠ Status.running) :
    evaluateSession env st = st := by
  rw [evaluateSession, if_pos h]

/-- Witness for C5 at a concrete stopped session. -/
theorem evaluateSession_not_running_noop_witness :
    evaluateSession envPaperW stStoppedW = stStoppedW :=
  evaluateSession_not_running_noop envPaperW stStoppedW (by decide)

/-- Claim C4: a tick that obtains fewer completed-candle closing prices than
the long window leaves the session record untouched (status still running, no
analytics written), leaves the positions untouched, and appends exactly one
log entry of level warn. -/
theorem evaluateSession_insufficient_data (env : TickEnv) (st : EngineState)
    (candles : List Candle)
    (hrun : st.session.status = Status.running)
    (hcand : env.candlesResult = Except.ok candles)
    (hlen : ((closingPrices candles).length : ℤ) < st.session.config.longWindow) :
    (evaluateSession env st).session = st.session ∧
    (evaluateSession env st).positions = st.positions ∧
    ∃ m, (evaluateSession env st).logs =
      st.logs ++ [{ level := LogLevel.warn, message := m }] := by
  have hbody : evaluateBody env st = Except.ok (logEvent st LogLevel.warn
      ("Not enough historical candles to evaluate strategy (have " ++
        toString (closingPrices candles).length ++ ", need " ++
        toString st.session.config.longWindow ++ ")")) := by
    unfold evaluateBody
    rw [hcand]
    exact if_pos hlen
  rw [evaluateSession, if_neg (by simp [hrun]), hbody]
  exact ⟨rfl, rfl, _, rfl⟩

/-- Witness for C4 at a concrete environment with a single completed candle. -/
theorem evaluateSession_insufficient_data_witness :
    (evaluateSession envFewW stW).session = stW.session ∧
    (evaluateSession envFewW stW).positions = stW.positions ∧
    ∃ m, (evaluateSession envFewW stW).logs =
      stW.logs ++ [{ level := LogLevel.warn, message := m }] :=
  evaluateSession_insufficient_data envFewW stW _ rfl rfl (by decide)

/-- Claim C3: the moving average degenerates to the most recent price when the
series is shorter than the window; with finite averages, a long average
indistinguishable from zero classifies by the sign of the difference, and
otherwise the ratio against the neutral threshold decides neutral versus the
sign of the difference. -/
theorem signal_calculator_spec (series : List ℚ) (w : ℤ) (s l t : ℚ)
    (hne : series ≠ []) (hlen : (series.length : ℤ) < w) :
    (∃ x, series.getLast? = some x ∧ movingAverage series w = some x) ∧
    (|l| < jsEpsilon →
      computeSignal (some s) (some l) t =
        (if l < s then Signal.long
         else if s < l then Signal.short
         else Signal.neutral)) ∧
    (jsEpsilon ≤ |l| →
      ((computeSignal (some s) (some l) t = Signal.neutral ↔ |s - l| / |l| < t) ∧
       (t ≤ |s - l| / |l| → l < s → computeSignal (some s) (some l) t = Signal.long) ∧
       (t ≤ |s - l| / |l| → s < l → computeSignal (some s) (some l) t = Signal.short))) := by
  refine ⟨?_, ?_, ?_⟩
  · obtain ⟨x, hx⟩ := Option.isSome_iff_exists.1 (List.getLast?_isSome.2 hne)
    exact ⟨x, hx, by rw [movingAverage, if_pos hlen]; exact hx⟩
  · intro h
    simp only [computeSignal, jsub, jabs, jlt, jgt]
    rw [if_pos (by simpa using h)]
    rcases lt_trichotomy l s with hc | hc | hc
    · rw [if_pos (by simpa using sub_pos.2 hc), if_pos hc]
    · subst hc
      simp
    · rw [if_neg (by simpa using not_lt.2 (sub_nonpos.2 hc.le)),
        if_pos (by simpa using sub_neg.2 hc), if_neg (not_lt.2 hc.le), if_pos hc]
  · intro h
    have hl0 : |l| ≠ 0 := ne_of_gt (lt_of_lt_of_le jsEpsilon_pos h)
    simp only [computeSignal, jsub, jabs, jlt, jgt, jdiv]
    rw [if_neg (by simpa using not_lt.2 h), if_neg hl0]
    refine ⟨?_, ?_, ?_⟩
    · by_cases hr : |s - l| / |l| < t
      · rw [if_pos (by simpa using hr)]
        simpa using hr
      · rw [if_neg (by simpa using hr)]
        constructor
        · intro hcontra
          split at hcontra <;> simp_all
        · intro hcontra
          exact absurd hcontra hr
    · intro hr hc
      rw [if_neg (by simpa using not_lt.2 hr), if_pos (by simpa using sub_pos.2 hc)]
    · intro hr hc
      rw [if_neg (by simpa using not_lt.2 hr),
        if_neg (by simpa using not_lt.2 (sub_nonpos.2 hc.le))]

/-- Witness for C3 at concrete inputs. -/
theorem signal_calculator_spec_witness :
    (∃ x, ([(7 : ℚ)]).getLast? = some x ∧ movingAverage [(7 : ℚ)] 3 = some x) ∧
    (|(100 : ℚ)| < jsEpsilon →
      computeSignal (some (201 / 2)) (some 100) (1 / 100) =
        (if (100 : ℚ) < 201 / 2 then Signal.long
         else if (201 / 2 : ℚ) < 100 then Signal.short
         else Signal.neutral)) ∧
    (jsEpsilon ≤ |(100 : ℚ)| →
      ((computeSignal (some (201 / 2)) (some 100) (1 / 100) = Signal.neutral ↔
          |(201 / 2 : ℚ) - 100| / |(100 : ℚ)| < 1 / 100) ∧
       ((1 / 100 : ℚ) ≤ |(201 / 2 : ℚ) - 100| / |(100 : ℚ)| → (100 : ℚ) < 201 / 2 →
          computeSignal (some (201 / 2)) (some 100) (1 / 100) = Signal.long) ∧
       ((1 / 100 : ℚ) ≤ |(201 / 2 : ℚ) - 100| / |(100 : ℚ)| → (201 / 2 : ℚ) < 100 →
          computeSignal (some (201 / 2)) (some 100) (1 / 100) = Signal.short))) :=
  signal_calculator_spec [7] 3 (201 / 2) 100 (1 / 100) (by decide) (by decide)

/-- Claim C10: configuration validation does not require positive windows:
any configuration with a non-positive short window, a larger long window and
otherwise valid fields is accepted; with a zero short window the short moving
average on a sufficiently long series is the non-finite 0 / 0, and the signal
is then decided by comparisons against the non-finite value (constant within
each long-average branch) instead of the crossover algorithm. -/
theorem validateConfig_accepts_nonpositive_windows (c : SessionConfig)
    (series : List ℚ) (l : ℚ)
    (_hsw : c.shortWindow ≤ 0) (hlw : c.shortWindow < c.longWindow)
    (htu : 0 < c.tradeUnits) (htp : 0 < c.takeProfitMultiplier)
    (hsl : 0 < c.stopLossMultiplier) (hnt : 0 ≤ c.neutralThreshold)
    (_hlen : c.longWindow ≤ (series.length : ℤ)) :
    validateConfig c = Except.ok () ∧
    (c.shortWindow = 0 → movingAverage series c.shortWindow = none) ∧
    computeSignal none (some l) c.neutralThreshold =
      (if |l| < jsEpsilon then Signal.neutral else Signal.short) := by
  refine ⟨?_, ?_, ?_⟩
  · rw [validateConfig, if_neg (not_le.2 hlw), if_neg (not_le.2 htu),
      if_neg (by push_neg; exact ⟨htp, hsl⟩), if_neg (not_lt.2 hnt)]
  · intro h0
    rw [h0, movingAverage,
      if_neg (not_lt.2 (by exact_mod_cast Int.natCast_nonneg series.length))]
    simp
  · simp only [computeSignal, jsub, jabs, jlt, jgt, jdiv]
    by_cases h : |l| < jsEpsilon
    · rw [if_pos (by simpa using h), if_pos h]
      rfl
    · rw [if_neg (by simpa using h), if_neg h]
      rfl

/-- Witness for C10 at a concrete degenerate configuration. -/
theorem validateConfig_accepts_nonpositive_windows_witness :
    validateConfig cfgDegW = Except.ok () ∧
    (cfgDegW.shortWindow = 0 → movingAverage [(1 : ℚ), 2] cfgDegW.shortWindow = none) ∧
    computeSignal none (some 5) cfgDegW.neutralThreshold =
      (if |(5 : ℚ)| < jsEpsilon then Signal.neutral else Signal.short) :=
  validateConfig_accepts_nonpositive_windows cfgDegW [1, 2] 5 (by decide) (by decide)
    (by norm_num [cfgDegW, cfgW]) (by norm_num [cfgDegW, cfgW]) (by norm_num [cfgDegW, cfgW])
    (by norm_num [cfgDegW, cfgW]) (by decide)

/-- Claim C7: during reconciliation, every locally open position holding a
broker trade identifier that the broker no longer reports open is marked
closed with close reason broker-closed and exit price the latest observed
market price, its realized profit and loss left untouched (the record update
keeps every unpatched field); every position without a broker trade
identifier is left untouched. -/
theorem reconcile_marks_broker_closed (env : TickEnv) (st : EngineState)
    (liveIds : List String) (lp : ℚ)
    (hcfg : env.oandaConfigured = true)
    (hlive : env.openTradesResult = Except.ok liveIds)
    (hopen : openPositionsOf st ≠ [])
    (hnodup : (st.positions.map (fun p => p.id)).Nodup) :
    ∀ p ∈ st.positions,
      (∀ tid, p.status = PosStatus.opened → p.oandaTradeId = some tid → tid ≠ "" →
        liveIds.contains tid = false →
        (reconcileStep env (openPositionsOf st) (some lp) st).1.positions.find?
            (fun q => q.id = p.id) =
          some { p with
            status := PosStatus.closed
            closedAt := some env.now
            closeReason := some "broker-closed"
            exitPrice := some lp }) ∧
      (p.oandaTradeId = none →
        (reconcileStep env (openPositionsOf st) (some lp) st).1.positions.find?
            (fun q => q.id = p.id) = some p) := by
  intro p hmem
  have hstep : (reconcileStep env (openPositionsOf st) (some lp) st).1 =
      (openPositionsOf st).foldl (reconcileOne liveIds (some lp) env.now) st := by
    rw [reconcileStep, if_pos ⟨hopen, hcfg⟩, hlive]
  constructor
  · intro tid hpopen htid hne hgone
    have hsc : shouldBrokerClose liveIds p = true := by
      simp only [shouldBrokerClose, htid]
      rw [hgone]
      simp [hne]
    have hany : ((openPositionsOf st).any
        fun q => q.id = p.id && shouldBrokerClose liveIds q) = true := by
      refine List.any_eq_true.2 ⟨p, ?_, ?_⟩
      · exact List.mem_filter.2 ⟨hmem, by simp [hpopen]⟩
      · simp [hsc]
    rw [hstep, reconcileFold_find, if_pos hany,
      find?_eq_self_of_nodup st.positions p hmem hnodup]
    rfl
  · intro hnone
    have hnot : ¬(((openPositionsOf st).any
        fun q => q.id = p.id && shouldBrokerClose liveIds q) = true) := by
      intro hc
      obtain ⟨q, hq, hcond⟩ := List.any_eq_true.1 hc
      have hq2 : q ∈ st.positions := (List.mem_filter.1 hq).1
      simp only [Bool.and_eq_true, decide_eq_true_eq] at hcond
      have hqp : q = p := List.inj_on_of_nodup_map hnodup hq2 hmem hcond.1
      subst hqp
      rw [shouldBrokerClose, hnone] at hcond
      exact Bool.false_ne_true hcond.2
    rw [hstep, reconcileFold_find, if_neg hnot,
      find?_eq_self_of_nodup st.positions p hmem hnodup]

/-- Witness for C7 at a concrete store with a broker-gone, a paper and a
still-live position. -/
theorem reconcile_marks_broker_closed_witness :
    (reconcileStep envReconW (openPositionsOf stReconW) (some 100) stReconW).1.positions.find?
        (fun q => q.id = posBrokerGoneW.id) =
      some { posBrokerGoneW with
        status := PosStatus.closed
        closedAt := some envReconW.now
        closeReason := some "broker-closed"
        exitPrice := some 100 } ∧
    (reconcileStep envReconW (openPositionsOf stReconW) (some 100) stReconW).1.positions.find?
        (fun q => q.id = posPaperW.id) = some posPaperW := by
  have h := reconcile_marks_broker_closed envReconW stReconW ["t2"] 100 rfl rfl
    (by decide) (by decide)
  exact ⟨(h posBrokerGoneW (by decide)).1 "t1" rfl rfl (by decide) (by decide),
    (h posPaperW (by decide)).2 rfl⟩

/-- Claim C8: every position recorded by an open carries the signed unit size
`|tradeUnits|` (positive for long, negative for short) and the take-profit
and stop-loss targets computed from the market price and the multipliers. -/
theorem openPositionWithBroker_targets (env : TickEnv) (st : EngineState)
    (dir : Direction) (p : ℚ) (st2 : EngineState) (called : Bool)
    (h : openPositionWithBroker env st dir (some p) = Except.ok (st2, called)) :
    ∃ q : Position, st2.positions = st.positions ++ [q] ∧
      q.direction = dir ∧
      q.units = (if dir = Direction.long then |st.session.config.tradeUnits|
                 else -|st.session.config.tradeUnits|) ∧
      q.takeProfitPrice = some (if dir = Direction.long
          then p * (1 + st.session.config.takeProfitMultiplier)
          else p * (1 - st.session.config.takeProfitMultiplier)) ∧
      q.stopLossPrice = some (if dir = Direction.long
          then p * (1 - st.session.config.stopLossMultiplier)
          else p * (1 + st.session.config.stopLossMultiplier)) := by
  have hu : signedUnits st.session.config dir =
      (if dir = Direction.long then |st.session.config.tradeUnits|
       else -|st.session.config.tradeUnits|) := by
    unfold signedUnits
    split
    · rw [mul_one]
    · rw [mul_neg_one]
  have htp : takeProfitPriceFor st.session.config dir (some p) =
      some (if dir = Direction.long then p * (1 + st.session.config.takeProfitMultiplier)
            else p * (1 - st.session.config.takeProfitMultiplier)) := by
    unfold takeProfitPriceFor
    split <;> rfl
  have hsl : stopLossPriceFor st.session.config dir (some p) =
      some (if dir = Direction.long then p * (1 - st.session.config.stopLossMultiplier)
            else p * (1 + st.session.config.stopLossMultiplier)) := by
    unfold stopLossPriceFor
    split <;> rfl
  simp only [openPositionWithBroker] at h
  split at h
  · cases hord : env.placeOrderResult with
    | error e =>
      rw [hord] at h
      exact absurd h (by simp)
    | ok resp =>
      rw [hord] at h
      simp only [Except.ok.injEq, Prod.mk.injEq] at h
      obtain ⟨h1, -⟩ := h
      subst h1
      exact ⟨_, rfl, rfl, hu, htp, hsl⟩
  · simp only [Except.ok.injEq, Prod.mk.injEq] at h
    obtain ⟨h1, -⟩ := h
    subst h1
    exact ⟨_, rfl, rfl, hu, htp, hsl⟩

/-- Witness for C8 at a concrete paper-mode open. -/
theorem openPositionWithBroker_targets_witness :
    ∃ st2 called,
      openPositionWithBroker envPaperW stW Direction.long (some 5) =
        Except.ok (st2, called) ∧
      ∃ q : Position, st2.positions = stW.positions ++ [q] ∧
        q.direction = Direction.long ∧
        q.units = (if Direction.long = Direction.long then |stW.session.config.tradeUnits|
                   else -|stW.session.config.tradeUnits|) ∧
        q.takeProfitPrice = some (if Direction.long = Direction.long
            then (5 : ℚ) * (1 + stW.session.config.takeProfitMultiplier)
            else (5 : ℚ) * (1 - stW.session.config.takeProfitMultiplier)) ∧
        q.stopLossPrice = some (if Direction.long = Direction.long
            then (5 : ℚ) * (1 - stW.session.config.stopLossMultiplier)
            else (5 : ℚ) * (1 + stW.session.config.stopLossMultiplier)) := by
  refine ⟨_, _, rfl, ?_⟩
  exact openPositionWithBroker_targets envPaperW stW Direction.long 5 _ _ rfl

/-- Claim C6: opening a position in paper mode issues no network call (the
result is independent of any order response and reports no call issued), the
recorded position has no broker trade identifier and entry price equal to the
supplied market price, and the record with its targets is created exactly as
in broker mode. -/
theorem openPositionWithBroker_paper_mode (env : TickEnv) (st : EngineState)
    (dir : Direction) (p : ℚ) (hcfg : env.oandaConfigured = false) :
    openPositionWithBroker env st dir (some p) =
      Except.ok
        (logEvent
          (createPositionRecord st dir (signedUnits st.session.config dir) (some p)
            (takeProfitPriceFor st.session.config dir (some p))
            (stopLossPriceFor st.session.config dir (some p)) none env.now)
          LogLevel.trade "Opened position", false) ∧
    (∀ env2 resp st2 called,
      env2.oandaConfigured = true →
      env2.placeOrderResult = Except.ok resp →
      openPositionWithBroker env2 st dir (some p) = Except.ok (st2, called) →
      called = true ∧
      ∃ q : Position, st2.positions = st.positions ++ [q] ∧
        q.direction = dir ∧
        q.units = signedUnits st.session.config dir ∧
        q.takeProfitPrice = takeProfitPriceFor st.session.config dir (some p) ∧
        q.stopLossPrice = stopLossPriceFor st.session.config dir (some p)) := by
  constructor
  · simp only [openPositionWithBroker, hcfg]
    rfl
  · intro env2 resp st2 called hcfg2 hord h
    simp only [openPositionWithBroker, hcfg2, if_pos, hord] at h
    simp only [Except.ok.injEq, Prod.mk.injEq] at h
    obtain ⟨h1, h2⟩ := h
    subst h1
    exact ⟨h2.symm, _, rfl, rfl, rfl, rfl, rfl⟩

/-- Witness for C6 at a concrete paper-mode open. -/
theorem openPositionWithBroker_paper_mode_witness :
    openPositionWithBroker envPaperW stW Direction.short (some 7) =
      Except.ok
        (logEvent
          (createPositionRecord stW Direction.short
            (signedUnits stW.session.config Direction.short) (some 7)
            (takeProfitPriceFor stW.session.config Direction.short (some 7))
            (stopLossPriceFor stW.session.config Direction.short (some 7)) none
            envPaperW.now)
          LogLevel.trade "Opened position", false) ∧
    (∀ env2 resp st2 called,
      env2.oandaConfigured = true →
      env2.placeOrderResult = Except.ok resp →
      openPositionWithBroker env2 stW Direction.short (some 7) = Except.ok (st2, called) →
      called = true ∧
      ∃ q : Position, st2.positions = stW.positions ++ [q] ∧
        q.direction = Direction.short ∧
        q.units = signedUnits stW.session.config Direction.short ∧
        q.takeProfitPrice = takeProfitPriceFor stW.session.config Direction.short (some 7) ∧
        q.stopLossPrice = stopLossPriceFor stW.session.config Direction.short (some 7)) :=
  openPositionWithBroker_paper_mode envPaperW stW Direction.short 7 rfl

/-- Claim C2: one tick inserts at most one position record, and a new
position is opened only when the refreshed list of locally open positions is
empty (so the result holds exactly the one new open position), the newly
computed signal is non-neutral, and it differs from the previously recorded
signal. -/
theorem evaluateSession_open_guard (env : TickEnv) (st : EngineState) :
    (evaluateSession env st).positions.length ≤ st.positions.length + 1 ∧
    ((evaluateSession env st).positions.length = st.positions.length + 1 →
      ∃ candles, env.candlesResult = Except.ok candles ∧
        tickSignal st.session.config (closingPrices candles) ≠ Signal.neutral ∧
        tickSignal st.session.config (closingPrices candles) ≠
          previousSignalOf st.session ∧
        ∃ q : Position, q.status = PosStatus.opened ∧
          openPositionsOf (evaluateSession env st) = [q]) := by
  unfold evaluateSession
  split
  · exact ⟨Nat.le_succ _, fun hc => absurd hc (by omega)⟩
  · cases hb : evaluateBody env st with
    | ok st1 =>
      dsimp only
      rcases evaluateBody_ok_spec env st st1 hb with h1 | ⟨candles, hc, hsig, hprev, q, hq1, hq2, hq3⟩
      · exact ⟨by omega, fun hcon => absurd (h1.symm.trans hcon) (by omega)⟩
      · exact ⟨by omega, fun _ => ⟨candles, hc, hsig, hprev, q, hq1, hq3⟩⟩
    | error p =>
      obtain ⟨msg, st1⟩ := p
      have hlen := evaluateBody_error_spec env st msg st1 hb
      dsimp only
      have hpos : (setStatus (logEvent st1 LogLevel.error ("Evaluation failed: " ++ msg))
          Status.error (some msg) env.now).positions.length = st1.positions.length := rfl
      exact ⟨by omega, fun hcon => absurd hcon (by omega)⟩

/-- Witness for C2 at a concrete environment and state. -/
theorem evaluateSession_open_guard_witness :
    (evaluateSession envPaperW stW).positions.length ≤ stW.positions.length + 1 ∧
    ((evaluateSession envPaperW stW).positions.length = stW.positions.length + 1 →
      ∃ candles, envPaperW.candlesResult = Except.ok candles ∧
        tickSignal stW.session.config (closingPrices candles) ≠ Signal.neutral ∧
        tickSignal stW.session.config (closingPrices candles) ≠
          previousSignalOf stW.session ∧
        ∃ q : Position, q.status = PosStatus.opened ∧
          openPositionsOf (evaluateSession envPaperW stW) = [q]) :=
  evaluateSession_open_guard envPaperW stW

/-- Claim C1: when the broker order placement of the open path throws, the
tick ends with the session in error status carrying the (non-empty) thrown
message, and the position records are exactly what they were before the
failing step: no position record is created for the failed open. -/
theorem evaluateSession_order_failure (env : TickEnv) (st : EngineState)
    (candles : List Candle) (e : String)
    (hrun : st.session.status = Status.running)
    (hcand : env.candlesResult = Except.ok candles)
    (hlen : st.session.config.longWindow ≤ ((closingPrices candles).length : ℤ))
    (hopen : openPositionsOf st = [])
    (hsig : tickSignal st.session.config (closingPrices candles) ≠ Signal.neutral)
    (hprev : tickSignal st.session.config (closingPrices candles) ≠
      previousSignalOf st.session)
    (hcfg : env.oandaConfigured = true)
    (hord : env.placeOrderResult = Except.error e)
    (hne : e ≠ "") :
    (evaluateSession env st).session.status = Status.error ∧
    (evaluateSession env st).session.errorMessage = some e ∧ e ≠ "" ∧
    (evaluateSession env st).positions = st.positions := by
  obtain ⟨d, hdir⟩ : ∃ d, Signal.toDirection
      (tickSignal st.session.config (closingPrices candles)) = some d := by
    cases h : tickSignal st.session.config (closingPrices candles) with
    | long => exact ⟨Direction.long, rfl⟩
    | short => exact ⟨Direction.short, rfl⟩
    | neutral => exact absurd h hsig
  have hbody : evaluateBody env st = Except.error (e,
      logEvent (logEvent (updateAnalytics st
          (movingAverage (closingPrices candles) st.session.config.shortWindow)
          (movingAverage (closingPrices candles) st.session.config.longWindow)
          (closingPrices candles).getLast?
          (some (tickSignal st.session.config (closingPrices candles)))
          (some env.now) none env.now)
        LogLevel.analysis "Tick processed")
      LogLevel.info "Attempting to open new position") := by
    unfold evaluateBody
    rw [hcand]
    dsimp only
    rw [if_neg (not_lt.2 hlen)]
    simp [hopen, decideSteps, reconcileStep, closeStep, openStep, openPositionWithBroker,
      hdir, hcfg, hord, hsig, hprev]
  rw [evaluateSession, if_neg (by simp [hrun]), hbody]
  exact ⟨rfl, rfl, hne, rfl⟩

/-- Witness for C1 at a concrete failing order placement. -/
theorem evaluateSession_order_failure_witness :
    (evaluateSession envFailW stW).session.status = Status.error ∧
    (evaluateSession envFailW stW).session.errorMessage = some "boom" ∧
    ("boom" : String) ≠ "" ∧
    (evaluateSession envFailW stW).positions = stW.positions := by
  have hsig : tickSignal stW.session.config
      (closingPrices [{ complete := true, close := 1 },
        { complete := true, close := 100 }]) = Signal.long := by
    have ha1 : |(101 / 2 : ℚ)| = 101 / 2 := abs_of_pos (by norm_num)
    have ha2 : |(99 / 2 : ℚ)| = 99 / 2 := abs_of_pos (by norm_num)
    show tickSignal cfgW [1, 100] = Signal.long
    rw [tickSignal]
    norm_num [movingAverage, List.sum_cons, List.sum_nil, List.cons_ne_nil, cfgW,
      computeSignal, jlt, jgt, jsub, jabs, jdiv, jsEpsilon, ha1, ha2]
  exact evaluateSession_order_failure envFailW stW _ "boom" rfl rfl (by decide) rfl
    (by rw [hsig]; decide) (by rw [hsig]; decide) rfl rfl (by decide)

/-- Claim C9 counterexample: stopping an errored session blanks the stored
error message (the stop patch with an undefined error message removes the
field), so an operation other than start does clear it, contradicting the
claim that only start does. -/
theorem stopSession_clears_error_message :
    stErrW.session.status = Status.error ∧
    stErrW.session.errorMessage = some "boom" ∧
    (stopSession 5 stErrW).session.errorMessage = none :=
  ⟨rfl, rfl, rfl⟩

/-- Claim C9 as amended: once a session is in error status with a recorded
message, evaluation ticks (no-ops on non-running sessions), configuration
updates and immediate-tick requests retain the message, while both a start
and a stop clear it. -/
theorem error_message_retention_amended (env : TickEnv) (config : SessionConfig)
    (st : EngineState) (now : ℕ) (m : String)
    (hstat : st.session.status = Status.error)
    (hmsg : st.session.errorMessage = some m) :
    (evaluateSession env st).session.errorMessage = some m ∧
    (updateSession config now st).session.errorMessage = some m ∧
    (requestImmediateTick now st).session.errorMessage = some m ∧
    (startSession now st).session.errorMessage = none ∧
    (stopSession now st).session.errorMessage = none := by
  refine ⟨?_, ?_, hmsg, ?_, rfl⟩
  · rw [evaluateSession, if_pos (by rw [hstat]; decide)]
    exact hmsg
  · unfold updateSession
    split
    · exact hmsg
    · exact hmsg
  · rw [startSession, if_neg (by rw [hstat]; decide)]
    rfl

/-- Witness for the amended C9 at a concrete errored session. -/
theorem error_message_retention_amended_witness :
    (evaluateSession envPaperW stErrW).session.errorMessage = some "boom" ∧
    (updateSession cfgW 5 stErrW).session.errorMessage = some "boom" ∧
    (requestImmediateTick 5 stErrW).session.errorMessage = some "boom" ∧
    (startSession 5 stErrW).session.errorMessage = none ∧
    (stopSession 5 stErrW).session.errorMessage = none :=
  error_message_retention_amended envPaperW cfgW stErrW 5 "boom" rfl rfl

end Trader
